import Mathlib

/-!
Verification development for the SomSmartCycle repository.

The repository's engine logic lives in three React components:
  * `GeoFencing` (client/src/components/ecommerce/EcommerceMetrics.tsx, second
    document): per-bike state, geofence classification and breach alerts;
  * `EcommerceMetrics` (same file, first document): location history and
    cumulative travelled distance with a 0.001 km noise filter;
  * `BikeTrackingMap` (client/src/pages/Map.tsx): per-bike state and the
    route accumulator.

The source computes distances with a floating-point haversine function
(`calculateDistance`).  The state-transition code below is embedded
parametrically over an arbitrary linear ordered field `α` and an arbitrary
distance function `dist : α → α → α → α → α` (same four-scalar signature as the
source's `calculateDistance(lat1, lng1, lat2, lng2)`); instantiating `α := ℝ`
and `dist := calculateDistance` yields the source behaviour, while `α := ℚ`
with a concrete distance function keeps every definition executable for
concrete witnesses.  The haversine function itself is transcribed over `ℝ`
separately.
-/

namespace SmartCycle

/-- A latitude/longitude pair, as the `Location` interface of the source. -/
structure Location (α : Type) where
  lat : α
  lng : α
  deriving DecidableEq

/-- The geofence configuration: `baseLocation` and `radius` (km) state of the
`GeoFencing` component (spec: `FenceConfig`). -/
structure FenceConfig (α : Type) where
  center : Location α
  radiusKm : α
  deriving DecidableEq

/-- The `Bike` record of the `GeoFencing` component. -/
structure GfBike (α : Type) where
  bikeId : String
  currentLocation : Location α
  avgSpeed : α
  batteryLevel : α
  lastSeen : String
  status : String
  isOutsideFence : Bool
  distanceFromBase : α
  deriving DecidableEq

/-- The `Alert` record of the `GeoFencing` component
(`{id, bikeId, type, message, distance, timestamp}`). -/
structure GfAlert (α : Type) where
  id : Nat
  bikeId : String
  alertType : String
  message : String
  distanceKm : α
  timestamp : String
  deriving DecidableEq

/-- One `bikeUpdate` socket payload (`BikeUpdateData`): bike id, location,
parsed speed and battery, and the producer timestamp. -/
structure GfEvent (α : Type) where
  bikeId : String
  location : Location α
  avgSpeed : α
  battery : α
  timestamp : String
  deriving DecidableEq

/-- The mutable state of the `GeoFencing` component that the claims are about:
the `bikes` list and the `alerts` buffer. -/
structure GfState (α : Type) where
  bikes : List (GfBike α)
  alerts : List (GfAlert α)
  deriving DecidableEq

variable {α : Type} [LinearOrderedField α]

/-- `prevBikes.find(bike => bike.bikeId === data.bikeId)`. -/
def findBike (bikes : List (GfBike α)) (id : String) : Option (GfBike α) :=
  bikes.find? (fun b => b.bikeId == id)

/-- `findIndex` + replace-at-index, else append: the first list entry whose
`bikeId` matches the new bike's is replaced; when none matches the new bike is
appended (`[...prevBikes, updatedBike]`). -/
def replaceBike : List (GfBike α) → GfBike α → List (GfBike α)
  | [], nb => [nb]
  | b :: bs, nb => if b.bikeId == nb.bikeId then nb :: bs else b :: replaceBike bs nb

/-- The fence evaluation of the `bikeUpdate` handler (and of `fetchBikes`):
`distance = calculateDistance(baseLocation, location); isOutsideFence =
distance > radius` — returns the classification together with the computed
distance from the fence center. -/
def evaluateFence (dist : α → α → α → α → α) (cfg : FenceConfig α)
    (loc : Location α) : Bool × α :=
  let d := dist cfg.center.lat cfg.center.lng loc.lat loc.lng
  (decide (cfg.radiusKm < d), d)

/-- The `updatedBike` record the `bikeUpdate` handler of `GeoFencing` builds:
location, parsed speed and battery, and `lastSeen` from the event,
`status: 'active'`, classification and distance from the fence evaluation. -/
def gfUpdatedBike (dist : α → α → α → α → α) (cfg : FenceConfig α)
    (e : GfEvent α) : GfBike α :=
  { bikeId := e.bikeId
    currentLocation := e.location
    avgSpeed := e.avgSpeed
    batteryLevel := e.battery
    lastSeen := e.timestamp
    status := "active"
    isOutsideFence := (evaluateFence dist cfg e.location).1
    distanceFromBase := (evaluateFence dist cfg e.location).2 }

/-- The alert condition of the `bikeUpdate` handler: the new classification is
outside and the previous record was absent or inside
(`if (updatedBike.isOutsideFence) { ... if (!existingBike ||
!existingBike.isOutsideFence) { ... } }`). -/
def gfEmit (dist : α → α → α → α → α) (cfg : FenceConfig α) (st : GfState α)
    (e : GfEvent α) : Bool :=
  if (evaluateFence dist cfg e.location).1 then
    match findBike st.bikes e.bikeId with
    | none => true
    | some b => !b.isOutsideFence
  else false

/-- The `bikeUpdate` handler of `GeoFencing`: builds `updatedBike` from the
event, classifies it against the fence, emits a breach alert exactly under
`gfEmit`, prepends the alert to the buffer keeping only the 5 most recent
(`[newAlert, ...prev.slice(0, 4)]`), and stores the updated bike.
`alertId`/`now` stand for the environment-supplied `Date.now()` and
wall-clock timestamp.  Returns the new state and the emitted alert, if any. -/
def gfStep (dist : α → α → α → α → α) (cfg : FenceConfig α) (alertId : Nat)
    (now : String) (st : GfState α) (e : GfEvent α) :
    GfState α × Option (GfAlert α) :=
  let updatedBike := gfUpdatedBike dist cfg e
  let emit := gfEmit dist cfg st e
  let newAlert : GfAlert α :=
    { id := alertId, bikeId := e.bikeId, alertType := "fence_breach",
      message := "Bike " ++ e.bikeId ++ " has left the geo-fence area",
      distanceKm := (evaluateFence dist cfg e.location).2, timestamp := now }
  ({ bikes := replaceBike st.bikes updatedBike,
     alerts := if emit then newAlert :: st.alerts.take 4 else st.alerts },
   if emit then some newAlert else none)

/-- The bike post-processing of `fetchBikes`: every bike's classification and
distance from the fence center are recomputed against the (possibly new)
fence configuration; nothing else is touched. -/
def reclassifyBikes (dist : α → α → α → α → α) (cfg : FenceConfig α)
    (bikes : List (GfBike α)) : List (GfBike α) :=
  bikes.map fun b =>
    let ev := evaluateFence dist cfg b.currentLocation
    { b with isOutsideFence := ev.1, distanceFromBase := ev.2 }

/-- The net state effect of a fence-configuration change (new center or
radius): the effect hook re-runs and `fetchBikes` recomputes every bike's
classification; the `alerts` buffer is not touched anywhere on this path. -/
def applyFenceChange (dist : α → α → α → α → α) (cfg' : FenceConfig α)
    (st : GfState α) : GfState α :=
  { bikes := reclassifyBikes dist cfg' st.bikes, alerts := st.alerts }

/-- `handleRadiusChange`: the new radius is adopted only when positive
(`if (value > 0) setRadius(value)`), after which the configuration change is
applied as in `applyFenceChange`. -/
def handleRadiusChange (dist : α → α → α → α → α) (cfg : FenceConfig α)
    (r : α) (st : GfState α) : FenceConfig α × GfState α :=
  if 0 < r then
    let cfg' : FenceConfig α := { cfg with radiusKm := r }
    (cfg', applyFenceChange dist cfg' st)
  else (cfg, st)

/-! ### The `EcommerceMetrics` dashboard: location history and cumulative distance -/

/-- One `LocationHistory` entry of the `EcommerceMetrics` component:
`{lat, lng, timestamp}`. -/
structure LocationStamp (α : Type) where
  lat : α
  lng : α
  timestamp : String
  deriving DecidableEq

/-- The `EcommerceMetrics` state touched by a `bikeData` event: the bounded
location history, the accumulated `totalCalculatedDistance`, the base location
and the derived `distanceFromBase`. -/
structure MetricsState (α : Type) where
  locationHistory : List (LocationStamp α)
  totalCalculatedDistance : α
  baseLocation : Location α
  distanceFromBase : α
  deriving DecidableEq

/-- A `bikeData` socket payload as used by the handler: the reported location
and the producer timestamp. -/
structure MetricsEvent (α : Type) where
  location : Location α
  timestamp : String
  deriving DecidableEq

/-- The `bikeData` handler of `EcommerceMetrics`: recomputes the distance from
the base location, adds the distance from the last recorded location to
`totalCalculatedDistance` only when it exceeds the 0.001 km (1 meter) noise
threshold, appends the new location to the history, and drops the oldest
history entry (`shift()`) when the history would exceed 100 entries. -/
def metricsStep (dist : α → α → α → α → α) (st : MetricsState α)
    (e : MetricsEvent α) : MetricsState α :=
  let distanceFromBaseCalc :=
    dist st.baseLocation.lat st.baseLocation.lng e.location.lat e.location.lng
  let newLocation : LocationStamp α :=
    { lat := e.location.lat, lng := e.location.lng, timestamp := e.timestamp }
  let total :=
    match st.locationHistory.getLast? with
    | none => st.totalCalculatedDistance
    | some lastLocation =>
        let distanceFromLast :=
          dist lastLocation.lat lastLocation.lng newLocation.lat newLocation.lng
        if (1 : α) / 1000 < distanceFromLast then
          st.totalCalculatedDistance + distanceFromLast
        else st.totalCalculatedDistance
  let pushed := st.locationHistory ++ [newLocation]
  { locationHistory := if 100 < pushed.length then pushed.tail else pushed,
    totalCalculatedDistance := total,
    baseLocation := st.baseLocation,
    distanceFromBase := distanceFromBaseCalc }

/-- `noiseRun dist st es = true` says that along the run of `metricsStep` from
`st` through the events `es`, every event whose history already has a last
recorded position moves strictly less than 0.001 km (1 meter) from it. -/
def noiseRun (dist : α → α → α → α → α) (st : MetricsState α) :
    List (MetricsEvent α) → Bool
  | [] => true
  | e :: es =>
      (match st.locationHistory.getLast? with
       | none => true
       | some p =>
           decide (dist p.lat p.lng e.location.lat e.location.lng < (1 : α) / 1000)) &&
      noiseRun dist (metricsStep dist st e) es

/-! ### The `BikeTrackingMap` page: per-bike state and the route accumulator -/

/-- The `Bike` record of `BikeTrackingMap` (`currentLocation` may be null). -/
structure MBike (α : Type) where
  bikeId : String
  currentLocation : Option (Location α)
  avgSpeed : α
  batteryLevel : α
  lastSeen : String
  status : String
  deriving DecidableEq

/-- The `routes` object of `BikeTrackingMap`: bike id keyed lists of points. -/
abbrev Routes (α : Type) : Type := List (String × List (Location α))

/-- `prevRoutes[bikeId]` on the routes object. -/
def lookupRoute (routes : Routes α) (id : String) : Option (List (Location α)) :=
  ((routes : List (String × List (Location α))).find? (fun r => r.1 == id)).map
    Prod.snd

/-- `{...prevRoutes, [bikeId]: pts}` on the routes object: replaces the entry
of an existing key, otherwise adds the key. -/
def setRoute : Routes α → String → List (Location α) → Routes α
  | [], id, pts => [(id, pts)]
  | r :: rs, id, pts =>
      if r.1 == id then (id, pts) :: rs else r :: setRoute rs id pts

/-- The `BikeTrackingMap` state the claims are about. -/
structure MapState (α : Type) where
  bikes : List (MBike α)
  routes : Routes α
  isTrackingRoutes : Bool
  deriving DecidableEq

/-- The `setBikes` update of the `bikeUpdate` handler in `BikeTrackingMap`:
the existing bike record (found by `findIndex`) has its location, speed,
battery and `lastSeen` replaced (spread keeps its other fields, notably
`status`); an unseen bike id is appended as a new record with
`status: 'active'`. -/
def mapBikesStep : List (MBike α) → GfEvent α → List (MBike α)
  | [], e =>
      [{ bikeId := e.bikeId, currentLocation := some e.location,
         avgSpeed := e.avgSpeed, batteryLevel := e.battery,
         lastSeen := e.timestamp, status := "active" }]
  | b :: bs, e =>
      if b.bikeId == e.bikeId then
        { b with
          currentLocation := some e.location
          avgSpeed := e.avgSpeed
          batteryLevel := e.battery
          lastSeen := e.timestamp } :: bs
      else b :: mapBikesStep bs e

/-- The `setRoutes` update of the `bikeUpdate` handler in `BikeTrackingMap`:
when route tracking is enabled, the event's point is appended to the bike's
route unless it is exactly equal (same `lat` and same `lng`) to the last
recorded point. -/
def mapRoutesStep (routes : Routes α) (tracking : Bool) (e : GfEvent α) :
    Routes α :=
  if tracking then
    let bikeRoute := (lookupRoute routes e.bikeId).getD []
    let newPoint := e.location
    match bikeRoute.getLast? with
    | none => setRoute routes e.bikeId (bikeRoute ++ [newPoint])
    | some lastPoint =>
        if lastPoint.lat ≠ newPoint.lat ∨ lastPoint.lng ≠ newPoint.lng then
          setRoute routes e.bikeId (bikeRoute ++ [newPoint])
        else routes
  else routes

/-- The whole `bikeUpdate` handler of `BikeTrackingMap`. -/
def mapStep (st : MapState α) (e : GfEvent α) : MapState α :=
  { bikes := mapBikesStep st.bikes e,
    routes := mapRoutesStep st.routes st.isTrackingRoutes e,
    isTrackingRoutes := st.isTrackingRoutes }

/-- The per-bike seeding step of `startRouteTracking`: a bike with a current
location gets its route set to the single point at that location. -/
def seedRoute (rs : Routes α) (b : MBike α) : Routes α :=
  match b.currentLocation with
  | some l => setRoute rs b.bikeId [l]
  | none => rs

/-- `startRouteTracking`: enables tracking, resets `routes` to `{}` and then
seeds, for each currently known bike with a location, that bike's route with
the single point at its current location. -/
def startRouteTracking (st : MapState α) : MapState α :=
  { st with
    isTrackingRoutes := true
    routes := st.bikes.foldl seedRoute ([] : Routes α) }

/-- `stopRouteTracking`: disables tracking; the accumulated routes are left
untouched. -/
def stopRouteTracking (st : MapState α) : MapState α :=
  { st with isTrackingRoutes := false }

/-- `clearRoutes`: empties the routes object. -/
def clearRoutes (st : MapState α) : MapState α :=
  { st with routes := ([] : Routes α) }

/-! ### The Entity State Store (spec §4.2)

The authoritative ingestion path of the system is the server process
(`server.js`, declared as `main` in `src/server/package.json` and queried by
the clients at `/api/bikes`), whose code is not under `src/`.  Its telemetry
application is modelled from the spec. -/

/-- The error taxonomy entry for malformed telemetry (spec §7). -/
inductive TelemetryError where
  | invalidTelemetry
  deriving DecidableEq

/-- A `TelemetryEvent` (spec §3). -/
structure TelemetryEvent (α : Type) where
  entityId : String
  timestamp : String
  location : Location α
  speed : α
  batteryLevel : α
  deriving DecidableEq

/-- An `EntityState` with its per-entity location history (spec §3). -/
structure EntityState (α : Type) where
  entityId : String
  currentLocation : Location α
  avgSpeed : α
  batteryLevel : α
  lastSeen : String
  status : String
  cumulativeDistance : α
  locationHistory : List (LocationStamp α)
  deriving DecidableEq

/-- Modelled from the spec: coordinate validation of telemetry events,
`lat∈[-90,90]`, `lng∈[-180,180]` (spec §3, §4.2). -/
def validCoordinates (loc : Location α) : Bool :=
  decide (-90 ≤ loc.lat ∧ loc.lat ≤ 90 ∧ -180 ≤ loc.lng ∧ loc.lng ≤ 180)

/-- First-match replacement in the store, keyed by entity id. -/
def replaceEntity : List (EntityState α) → EntityState α → List (EntityState α)
  | [], ns => [ns]
  | s :: ss, ns =>
      if s.entityId == ns.entityId then ns :: ss else s :: replaceEntity ss ns

/-- Modelled from the spec: `applyTelemetry` of the Entity State Store
(spec §4.2), whose implementation (`server.js`) is not under `src/`.
Validates the event's coordinates; on failure returns `InvalidTelemetry` and
leaves the store untouched.  On success it creates a fresh `EntityState`
(`status = active`, `cumulativeDistance = 0`) for an unseen entity id, or
updates location, speed, battery and `lastSeen`, appends to the capped
location history (FIFO eviction) and adds the movement delta to
`cumulativeDistance` under the noise threshold rule (spec §3 invariants). -/
def applyTelemetry (dist : α → α → α → α → α) (cap : Nat)
    (store : List (EntityState α)) (e : TelemetryEvent α) :
    List (EntityState α) × Except TelemetryError (EntityState α) :=
  if validCoordinates e.location then
    match store.find? (fun s => s.entityId == e.entityId) with
    | none =>
        let st : EntityState α :=
          { entityId := e.entityId, currentLocation := e.location,
            avgSpeed := e.speed, batteryLevel := e.batteryLevel,
            lastSeen := e.timestamp, status := "active",
            cumulativeDistance := 0,
            locationHistory := [⟨e.location.lat, e.location.lng, e.timestamp⟩] }
        (store ++ [st], .ok st)
    | some prev =>
        let delta := dist prev.currentLocation.lat prev.currentLocation.lng
          e.location.lat e.location.lng
        let pushed : List (LocationStamp α) :=
          prev.locationHistory ++ [⟨e.location.lat, e.location.lng, e.timestamp⟩]
        let st : EntityState α :=
          { prev with
            currentLocation := e.location
            avgSpeed := e.speed
            batteryLevel := e.batteryLevel
            lastSeen := e.timestamp
            status := "active"
            cumulativeDistance :=
              if (1 : α) / 1000 < delta then prev.cumulativeDistance + delta
              else prev.cumulativeDistance
            locationHistory := if cap < pushed.length then pushed.tail else pushed }
        (replaceEntity store st, .ok st)
  else (store, .error .invalidTelemetry)

/-! ### The floating-point haversine of the source, over `ℝ`

`calculateDistance` (identical in EcommerceMetrics.tsx and Map.tsx) is
transcribed over the reals, with JavaScript's `Math.atan2` modelled by its
mathematical definition. -/

/-- JavaScript's `Math.atan2(y, x)` (zero-argument conventions of the spec,
ignoring signed zeros and NaNs). -/
noncomputable def atan2 (y x : ℝ) : ℝ :=
  if 0 < x then Real.arctan (y / x)
  else if x < 0 then
    (if 0 ≤ y then Real.arctan (y / x) + Real.pi else Real.arctan (y / x) - Real.pi)
  else if 0 < y then Real.pi / 2
  else if y < 0 then -(Real.pi / 2)
  else 0

/-- The intermediate `a` of `calculateDistance`:
`sin(dLat/2)² + cos(lat1·π/180)·cos(lat2·π/180)·sin(dLng/2)²`. -/
noncomputable def haverA (lat1 lng1 lat2 lng2 : ℝ) : ℝ :=
  Real.sin ((lat2 - lat1) * Real.pi / 180 / 2) *
      Real.sin ((lat2 - lat1) * Real.pi / 180 / 2) +
    Real.cos (lat1 * Real.pi / 180) * Real.cos (lat2 * Real.pi / 180) *
      Real.sin ((lng2 - lng1) * Real.pi / 180 / 2) *
      Real.sin ((lng2 - lng1) * Real.pi / 180 / 2)

/-- `calculateDistance(lat1, lng1, lat2, lng2)`: the haversine distance as the
source computes it, `R = 6371` km, `c = 2·atan2(√a, √(1−a))`, result `R·c`. -/
noncomputable def calculateDistance (lat1 lng1 lat2 lng2 : ℝ) : ℝ :=
  6371 * (2 * atan2 (Real.sqrt (haverA lat1 lng1 lat2 lng2))
    (Real.sqrt (1 - haverA lat1 lng1 lat2 lng2)))

/-- Modelled from the spec: `distanceKm` — "haversine great-circle distance
between two `{lat,lng}` points in kilometers, using Earth radius 6371 km"
(spec §4.1), in the canonical arcsine form
`2·R·arcsin(√(sin²(Δφ/2) + cos φ₁ · cos φ₂ · sin²(Δλ/2)))`. -/
noncomputable def haversineSpecKm (lat1 lng1 lat2 lng2 : ℝ) : ℝ :=
  2 * 6371 * Real.arcsin (Real.sqrt
    (Real.sin ((lat2 - lat1) * Real.pi / 180 / 2) ^ 2 +
      Real.cos (lat1 * Real.pi / 180) * Real.cos (lat2 * Real.pi / 180) *
        Real.sin ((lng2 - lng1) * Real.pi / 180 / 2) ^ 2))

/-! ### Supporting lemmas about the haversine computation -/

lemma cos_deg_nonneg {lat : ℝ} (h : |lat| ≤ 90) :
    0 ≤ Real.cos (lat * Real.pi / 180) := by
  obtain ⟨hl, hr⟩ := abs_le.mp h
  apply Real.cos_nonneg_of_mem_Icc
  constructor
  · nlinarith [mul_nonneg (by linarith : (0:ℝ) ≤ lat + 90) Real.pi_pos.le]
  · nlinarith [mul_nonneg (by linarith : (0:ℝ) ≤ 90 - lat) Real.pi_pos.le]

lemma haverA_nonneg {lat1 lng1 lat2 lng2 : ℝ} (h1 : |lat1| ≤ 90)
    (h2 : |lat2| ≤ 90) : 0 ≤ haverA lat1 lng1 lat2 lng2 := by
  have c1 := cos_deg_nonneg h1
  have c2 := cos_deg_nonneg h2
  unfold haverA
  nlinarith [mul_self_nonneg (Real.sin ((lat2 - lat1) * Real.pi / 180 / 2)),
    mul_self_nonneg (Real.sin ((lng2 - lng1) * Real.pi / 180 / 2)),
    mul_nonneg c1 c2]

lemma haverA_le_one {lat1 lng1 lat2 lng2 : ℝ} (h1 : |lat1| ≤ 90)
    (h2 : |lat2| ≤ 90) : haverA lat1 lng1 lat2 lng2 ≤ 1 := by
  have c1 := cos_deg_nonneg h1
  have c2 := cos_deg_nonneg h2
  set x := lat1 * Real.pi / 180 with hx
  set y := lat2 * Real.pi / 180 with hy
  have harg : (lat2 - lat1) * Real.pi / 180 / 2 = (y - x) / 2 := by
    rw [hx, hy]; ring
  have hs : Real.sin ((y - x) / 2) ^ 2 = 1 / 2 - Real.cos (y - x) / 2 := by
    have h2m : 2 * ((y - x) / 2) = y - x := by ring
    have := Real.sin_sq_eq_half_sub ((y - x) / 2)
    rwa [h2m] at this
  have hcsub : Real.cos (y - x) = Real.cos y * Real.cos x + Real.sin y * Real.sin x :=
    Real.cos_sub y x
  have hcadd : Real.cos (x + y) = Real.cos x * Real.cos y - Real.sin x * Real.sin y :=
    Real.cos_add x y
  have hle : Real.cos (x + y) ≤ 1 := Real.cos_le_one _
  have hsinsq : Real.sin ((lng2 - lng1) * Real.pi / 180 / 2) ^ 2 ≤ 1 :=
    Real.sin_sq_le_one _
  unfold haverA
  rw [harg]
  nlinarith [mul_nonneg (mul_nonneg c1 c2)
    (by nlinarith : (0:ℝ) ≤ 1 - Real.sin ((lng2 - lng1) * Real.pi / 180 / 2) ^ 2),
    sq_nonneg (Real.sin ((y - x) / 2))]

/-- On the arguments the haversine computation produces (`y = √a`,
`x = √(1-a)` with `a ∈ [0,1]`), JavaScript's `atan2` agrees with the arcsine
of `√a`. -/
lemma atan2_sqrt_eq_arcsin {a : ℝ} (h0 : 0 ≤ a) (h1 : a ≤ 1) :
    atan2 (Real.sqrt a) (Real.sqrt (1 - a)) = Real.arcsin (Real.sqrt a) := by
  rcases lt_or_eq_of_le h1 with hlt | heq
  · have hpos : 0 < Real.sqrt (1 - a) := Real.sqrt_pos.mpr (by linarith)
    rw [atan2, if_pos hpos]
    have hmem : Real.sqrt a ∈ Set.Ioo (-(1 : ℝ)) 1 := by
      constructor
      · linarith [Real.sqrt_nonneg a]
      · have : Real.sqrt a < Real.sqrt 1 := Real.sqrt_lt_sqrt h0 hlt
        simpa using this
    rw [Real.arcsin_eq_arctan hmem, Real.sq_sqrt h0]
  · subst heq
    have hz : Real.sqrt (1 - 1) = 0 := by norm_num
    rw [atan2, hz]
    have h1' : Real.sqrt 1 = 1 := Real.sqrt_one
    rw [h1']
    norm_num [Real.arcsin_one]

lemma haverA_symm (lat1 lng1 lat2 lng2 : ℝ) :
    haverA lat1 lng1 lat2 lng2 = haverA lat2 lng2 lat1 lng1 := by
  unfold haverA
  have e1 : (lat1 - lat2) * Real.pi / 180 / 2 = -((lat2 - lat1) * Real.pi / 180 / 2) := by
    ring
  have e2 : (lng1 - lng2) * Real.pi / 180 / 2 = -((lng2 - lng1) * Real.pi / 180 / 2) := by
    ring
  rw [e1, e2, Real.sin_neg, Real.sin_neg]
  ring

/-- On in-range latitudes the source's `atan2`-form haversine equals the
spec's canonical arcsine-form haversine. -/
lemma calculateDistance_eq_spec {lat1 lng1 lat2 lng2 : ℝ}
    (h1 : |lat1| ≤ 90) (h2 : |lat2| ≤ 90) :
    calculateDistance lat1 lng1 lat2 lng2 = haversineSpecKm lat1 lng1 lat2 lng2 := by
  unfold calculateDistance haversineSpecKm
  rw [atan2_sqrt_eq_arcsin (haverA_nonneg h1 h2) (haverA_le_one h1 h2)]
  have h : haverA lat1 lng1 lat2 lng2 =
      Real.sin ((lat2 - lat1) * Real.pi / 180 / 2) ^ 2 +
        Real.cos (lat1 * Real.pi / 180) * Real.cos (lat2 * Real.pi / 180) *
          Real.sin ((lng2 - lng1) * Real.pi / 180 / 2) ^ 2 := by
    unfold haverA; ring
  rw [h]
  ring

lemma calculateDistance_symm (lat1 lng1 lat2 lng2 : ℝ) :
    calculateDistance lat1 lng1 lat2 lng2 = calculateDistance lat2 lng2 lat1 lng1 := by
  unfold calculateDistance
  rw [haverA_symm]

/-! ### Concrete fixtures for executable witnesses (over `ℚ`) -/

/-- A concrete executable stand-in distance function for witnesses (the claim
theorems hold for every distance function, in particular the haversine). -/
def distQ : ℚ → ℚ → ℚ → ℚ → ℚ := fun x1 y1 x2 y2 => (x2 - x1) ^ 2 + (y2 - y1) ^ 2

def cfgQ : FenceConfig ℚ := ⟨⟨0, 0⟩, 1⟩

def evOut1 : GfEvent ℚ := ⟨"BIKE001", ⟨2, 0⟩, 10, 70, "t0"⟩

def evOut2 : GfEvent ℚ := ⟨"BIKE001", ⟨3, 0⟩, 10, 70, "t1"⟩

def mStQ : MetricsState ℚ :=
  { locationHistory := [⟨0, 0, "t0"⟩], totalCalculatedDistance := 5,
    baseLocation := ⟨0, 0⟩, distanceFromBase := 0 }

def mEvQ : MetricsEvent ℚ := ⟨⟨0, 1/2000⟩, "t1"⟩

def tEvBadQ : TelemetryEvent ℚ := ⟨"BIKE001", "t0", ⟨91, 0⟩, 10, 70⟩

/-! ### Supporting lemmas about the state transitions -/

lemma gfStep_fst_bikes (dist : α → α → α → α → α) (cfg : FenceConfig α)
    (alertId : Nat) (now : String) (st : GfState α) (e : GfEvent α) :
    ((gfStep dist cfg alertId now st e).1).bikes =
      replaceBike st.bikes (gfUpdatedBike dist cfg e) := rfl

omit [LinearOrderedField α] in
lemma findBike_replaceBike (l : List (GfBike α)) (nb : GfBike α) :
    findBike (replaceBike l nb) nb.bikeId = some nb := by
  induction l with
  | nil => simp [replaceBike, findBike]
  | cons b bs ih =>
      cases hbeq : b.bikeId == nb.bikeId with
      | true => simp [replaceBike, hbeq, findBike]
      | false =>
          simp only [findBike] at ih
          simp [replaceBike, hbeq, findBike, List.find?_cons, ih]

/-- Characterization of the alert condition of the `bikeUpdate` handler. -/
lemma gfEmit_iff (dist : α → α → α → α → α) (cfg : FenceConfig α)
    (st : GfState α) (e : GfEvent α) :
    gfEmit dist cfg st e = true ↔
      ((evaluateFence dist cfg e.location).1 = true ∧
        (findBike st.bikes e.bikeId = none ∨
          ∃ b, findBike st.bikes e.bikeId = some b ∧ b.isOutsideFence = false)) := by
  cases hev : (evaluateFence dist cfg e.location).1 with
  | false => simp [gfEmit, hev]
  | true =>
      cases hfb : findBike st.bikes e.bikeId with
      | none => simp [gfEmit, hev, hfb]
      | some b => cases hob : b.isOutsideFence <;> simp [gfEmit, hev, hfb, hob]

/-! ### Claim theorems -/

/-- C1: an Alert is emitted if and only if the entity's new classification is
outside while its previous record was inside or absent (rising-edge
detection); and an entity that stays outside across two consecutive telemetry
events alerts at most on the first of them: the second, still-outside report
emits no Alert. -/
theorem alert_iff_inside_to_outside
    (dist : α → α → α → α → α) (cfg : FenceConfig α) (alertId : Nat)
    (now : String) (st : GfState α) (e : GfEvent α) :
    ((gfStep dist cfg alertId now st e).2.isSome = true ↔
      ((evaluateFence dist cfg e.location).1 = true ∧
        (findBike st.bikes e.bikeId = none ∨
          ∃ b, findBike st.bikes e.bikeId = some b ∧ b.isOutsideFence = false)))
    ∧ ∀ (alertId' : Nat) (now' : String) (e' : GfEvent α),
        e'.bikeId = e.bikeId →
        (evaluateFence dist cfg e.location).1 = true →
        (evaluateFence dist cfg e'.location).1 = true →
        (gfStep dist cfg alertId' now' (gfStep dist cfg alertId now st e).1 e').2 = none := by
  constructor
  · rw [← gfEmit_iff dist cfg st e]
    cases hem : gfEmit dist cfg st e <;> simp [gfStep, hem]
  · intro alertId' now' e' hid houtE houtE'
    set st1 := (gfStep dist cfg alertId now st e).1 with hst1
    have hfind : findBike ((gfStep dist cfg alertId now st e).1).bikes e'.bikeId =
        some (gfUpdatedBike dist cfg e) := by
      rw [gfStep_fst_bikes, hid]
      have h2 : e.bikeId = (gfUpdatedBike dist cfg e).bikeId := rfl
      rw [h2]
      exact findBike_replaceBike st.bikes _
    have hem : gfEmit dist cfg ((gfStep dist cfg alertId now st e).1) e' = false := by
      simp only [gfEmit, houtE', if_true]
      rw [hfind]
      simp [gfUpdatedBike, houtE]
    simp [gfStep, hem]

/-- C1, executable witness: a first outside report of an unknown bike emits an
alert; the immediately following outside report of the same bike does not. -/
theorem alert_iff_inside_to_outside_witness :
    (gfStep distQ cfgQ 1 "n0" ⟨[], []⟩ evOut1).2.isSome = true
    ∧ (gfStep distQ cfgQ 2 "n1" (gfStep distQ cfgQ 1 "n0" ⟨[], []⟩ evOut1).1 evOut2).2 = none := by
  constructor
  · exact (alert_iff_inside_to_outside distQ cfgQ 1 "n0" ⟨[], []⟩ evOut1).1.mpr
      ⟨by norm_num [evaluateFence, distQ, cfgQ, evOut1], Or.inl rfl⟩
  · exact (alert_iff_inside_to_outside distQ cfgQ 1 "n0" ⟨[], []⟩ evOut1).2 2 "n1" evOut2
      rfl (by norm_num [evaluateFence, distQ, cfgQ, evOut1])
      (by norm_num [evaluateFence, distQ, cfgQ, evOut2])

/-- C2: the fence evaluation computes the haversine great-circle distance
(Earth radius 6371 km) between the entity's location and the fence center,
and classifies the entity outside exactly when that distance is strictly
greater than the fence radius; a distance exactly equal to the radius is
classified inside. -/
theorem fence_eval_strict_haversine (cfg : FenceConfig ℝ) (loc : Location ℝ)
    (h1 : |cfg.center.lat| ≤ 90) (h2 : |loc.lat| ≤ 90) :
    (evaluateFence calculateDistance cfg loc).2
        = haversineSpecKm loc.lat loc.lng cfg.center.lat cfg.center.lng
    ∧ ((evaluateFence calculateDistance cfg loc).1 = true ↔
        cfg.radiusKm < haversineSpecKm loc.lat loc.lng cfg.center.lat cfg.center.lng)
    ∧ (haversineSpecKm loc.lat loc.lng cfg.center.lat cfg.center.lng = cfg.radiusKm →
        (evaluateFence calculateDistance cfg loc).1 = false) := by
  have heq : calculateDistance cfg.center.lat cfg.center.lng loc.lat loc.lng
      = haversineSpecKm loc.lat loc.lng cfg.center.lat cfg.center.lng := by
    rw [calculateDistance_symm]
    exact calculateDistance_eq_spec h2 h1
  refine ⟨heq, ?_, ?_⟩
  · simp [evaluateFence, heq]
  · intro h
    simp [evaluateFence, heq, h]

/-- C2, witness at the fence center itself (both latitudes in range). -/
theorem fence_eval_strict_haversine_witness :
    |(FenceConfig.center (⟨⟨0, 0⟩, 1⟩ : FenceConfig ℝ)).lat| ≤ 90
    ∧ ((evaluateFence calculateDistance (⟨⟨0, 0⟩, 1⟩ : FenceConfig ℝ) ⟨0, 0⟩).2
        = haversineSpecKm 0 0 0 0
      ∧ ((evaluateFence calculateDistance (⟨⟨0, 0⟩, 1⟩ : FenceConfig ℝ) ⟨0, 0⟩).1 = true ↔
          (1 : ℝ) < haversineSpecKm 0 0 0 0)
      ∧ (haversineSpecKm 0 0 0 0 = (1 : ℝ) →
          (evaluateFence calculateDistance (⟨⟨0, 0⟩, 1⟩ : FenceConfig ℝ) ⟨0, 0⟩).1 = false)) :=
  ⟨by norm_num,
    fence_eval_strict_haversine ⟨⟨0, 0⟩, 1⟩ ⟨0, 0⟩ (by norm_num) (by norm_num)⟩

lemma metricsStep_getLast (dist : α → α → α → α → α) (st : MetricsState α)
    (e : MetricsEvent α) :
    (metricsStep dist st e).locationHistory.getLast? =
      some ⟨e.location.lat, e.location.lng, e.timestamp⟩ := by
  cases h : st.locationHistory with
  | nil => simp [metricsStep, h]
  | cons a l =>
      simp only [metricsStep, h]
      split
      · exact List.getLast?_concat _
      · exact List.getLast?_concat _

/-- C3: applying a telemetry event never decreases the cumulative distance; a
movement below the 0.001 km noise threshold leaves it exactly unchanged; and
the only other possibility is an in-place increment by the accepted movement
delta, which is itself above the noise threshold (hence positive). -/
theorem cumulative_distance_monotone (dist : α → α → α → α → α)
    (st : MetricsState α) (e : MetricsEvent α) :
    st.totalCalculatedDistance ≤ (metricsStep dist st e).totalCalculatedDistance
    ∧ (∀ p, st.locationHistory.getLast? = some p →
        dist p.lat p.lng e.location.lat e.location.lng < 1 / 1000 →
        (metricsStep dist st e).totalCalculatedDistance = st.totalCalculatedDistance)
    ∧ ((metricsStep dist st e).totalCalculatedDistance = st.totalCalculatedDistance
       ∨ ∃ p, st.locationHistory.getLast? = some p
           ∧ 1 / 1000 < dist p.lat p.lng e.location.lat e.location.lng
           ∧ (metricsStep dist st e).totalCalculatedDistance
               = st.totalCalculatedDistance + dist p.lat p.lng e.location.lat e.location.lng) := by
  cases hl : st.locationHistory.getLast? with
  | none =>
      refine ⟨le_of_eq ?_, ?_, Or.inl ?_⟩ <;>
        simp [metricsStep, hl]
  | some p =>
      have htot : (metricsStep dist st e).totalCalculatedDistance =
          (if (1 : α) / 1000 < dist p.lat p.lng e.location.lat e.location.lng then
            st.totalCalculatedDistance + dist p.lat p.lng e.location.lat e.location.lng
          else st.totalCalculatedDistance) := by
        simp only [metricsStep, hl]
      by_cases hd : (1 : α) / 1000 < dist p.lat p.lng e.location.lat e.location.lng
      · rw [htot, if_pos hd]
        have h0 : (0 : α) < 1 / 1000 := by positivity
        refine ⟨by linarith, ?_, Or.inr ⟨p, rfl, hd, rfl⟩⟩
        intro q hq hqd
        injection hq with hq
        subst hq
        linarith
      · rw [htot, if_neg hd]
        exact ⟨le_refl _, fun q hq hqd => rfl, Or.inl rfl⟩

/-- C3, executable witness: a 0.5 mm movement (below the 1 m threshold) does
not change `totalCalculatedDistance`, and the update is monotone. -/
theorem cumulative_distance_monotone_witness :
    mStQ.totalCalculatedDistance ≤ (metricsStep distQ mStQ mEvQ).totalCalculatedDistance
    ∧ (metricsStep distQ mStQ mEvQ).totalCalculatedDistance
        = mStQ.totalCalculatedDistance :=
  ⟨(cumulative_distance_monotone distQ mStQ mEvQ).1,
    (cumulative_distance_monotone distQ mStQ mEvQ).2.1 ⟨0, 0, "t0"⟩ rfl
      (by norm_num [distQ, mStQ, mEvQ])⟩

lemma noise_step_total (dist : α → α → α → α → α) (st : MetricsState α)
    (e : MetricsEvent α)
    (h : ∀ p, st.locationHistory.getLast? = some p →
      dist p.lat p.lng e.location.lat e.location.lng < 1 / 1000) :
    (metricsStep dist st e).totalCalculatedDistance = st.totalCalculatedDistance := by
  cases hl : st.locationHistory.getLast? with
  | none => simp only [metricsStep, hl]
  | some p =>
      have hd := h p hl
      have hnd : ¬ (1 : α) / 1000 < dist p.lat p.lng e.location.lat e.location.lng := by
        linarith
      simp only [metricsStep, hl, hnd, if_false, ite_false]

/-- C4: applying the same telemetry event a second time in a row leaves the
cumulative distance unchanged (the noise filter sees the zero self-distance),
and any run of events that each move strictly less than 0.001 km from the
last recorded position never increases the cumulative distance. -/
theorem duplicate_and_noise_preserve_total (dist : α → α → α → α → α)
    (hdist : ∀ x y : α, dist x y x y = 0)
    (st : MetricsState α) (e : MetricsEvent α) (es : List (MetricsEvent α))
    (hnoise : noiseRun dist st es = true) :
    (metricsStep dist (metricsStep dist st e) e).totalCalculatedDistance
      = (metricsStep dist st e).totalCalculatedDistance
    ∧ (es.foldl (metricsStep dist) st).totalCalculatedDistance
        ≤ st.totalCalculatedDistance := by
  constructor
  · apply noise_step_total
    intro p hp
    rw [metricsStep_getLast] at hp
    injection hp with hp
    subst hp
    rw [hdist]
    positivity
  · clear hdist e
    induction es generalizing st with
    | nil => simp
    | cons e' es' ih =>
        simp only [noiseRun, Bool.and_eq_true] at hnoise
        obtain ⟨hhead, htail⟩ := hnoise
        have hstep : (metricsStep dist st e').totalCalculatedDistance
            = st.totalCalculatedDistance := by
          apply noise_step_total
          intro p hp
          rw [hp] at hhead
          exact of_decide_eq_true hhead
        calc (List.foldl (metricsStep dist) st (e' :: es')).totalCalculatedDistance
            = (List.foldl (metricsStep dist) (metricsStep dist st e') es').totalCalculatedDistance := by
              simp [List.foldl]
          _ ≤ (metricsStep dist st e').totalCalculatedDistance := ih _ htail
          _ = st.totalCalculatedDistance := hstep

/-- C4, executable witness: a duplicate delivery and a one-event sub-millimeter
noise run both leave the cumulative distance unchanged. -/
theorem duplicate_and_noise_preserve_total_witness :
    (metricsStep distQ (metricsStep distQ mStQ mEvQ) mEvQ).totalCalculatedDistance
      = (metricsStep distQ mStQ mEvQ).totalCalculatedDistance
    ∧ ([mEvQ].foldl (metricsStep distQ) mStQ).totalCalculatedDistance
        ≤ mStQ.totalCalculatedDistance :=
  duplicate_and_noise_preserve_total distQ (fun x y => by norm_num [distQ])
    mStQ mEvQ [mEvQ]
    (by norm_num [noiseRun, metricsStep, mStQ, mEvQ, distQ])

/-- C5: a telemetry event with an out-of-range latitude or longitude is
rejected with `InvalidTelemetry` and the store is left completely unchanged
(spec-modelled: the store implementation, `server.js`, is not under `src/`). -/
theorem invalid_telemetry_rejected (dist : α → α → α → α → α) (cap : Nat)
    (store : List (EntityState α)) (e : TelemetryEvent α)
    (h : e.location.lat < -90 ∨ 90 < e.location.lat
      ∨ e.location.lng < -180 ∨ 180 < e.location.lng) :
    (applyTelemetry dist cap store e).1 = store
    ∧ (applyTelemetry dist cap store e).2 = .error .invalidTelemetry := by
  have hv : validCoordinates e.location = false := by
    simp only [validCoordinates, decide_eq_false_iff_not]
    rintro ⟨h1, h2, h3, h4⟩
    rcases h with h | h | h | h <;> linarith
  constructor <;> simp [applyTelemetry, hv]

/-- C5, executable witness: latitude 91 is rejected and the empty store stays
empty. -/
theorem invalid_telemetry_rejected_witness :
    (tEvBadQ.location.lat < -90 ∨ 90 < tEvBadQ.location.lat
      ∨ tEvBadQ.location.lng < -180 ∨ 180 < tEvBadQ.location.lng)
    ∧ (applyTelemetry distQ 100 [] tEvBadQ).1 = []
    ∧ (applyTelemetry distQ 100 [] tEvBadQ).2 = .error .invalidTelemetry :=
  ⟨Or.inr (Or.inl (by norm_num [tEvBadQ])),
    (invalid_telemetry_rejected distQ 100 [] tEvBadQ
      (Or.inr (Or.inl (by norm_num [tEvBadQ])))).1,
    (invalid_telemetry_rejected distQ 100 [] tEvBadQ
      (Or.inr (Or.inl (by norm_num [tEvBadQ])))).2⟩

/-- C6 (amended): with tracking enabled and a non-empty recorded route, the
route accumulator appends the new point exactly when it differs from the last
recorded point in latitude or longitude, and is a no-op when the coordinates
are exactly equal — an exact-duplicate filter, not a 1-meter distance
filter. -/
theorem route_point_append_iff_changed (routes : Routes α) (e : GfEvent α)
    (r : List (Location α)) (p : Location α)
    (hr : lookupRoute routes e.bikeId = some r) (hlast : r.getLast? = some p) :
    ((p.lat = e.location.lat ∧ p.lng = e.location.lng) →
        mapRoutesStep routes true e = routes)
    ∧ ((p.lat ≠ e.location.lat ∨ p.lng ≠ e.location.lng) →
        mapRoutesStep routes true e = setRoute routes e.bikeId (r ++ [e.location])) := by
  constructor
  · intro hsame
    simp only [mapRoutesStep, if_true, hr, Option.getD_some, hlast]
    rw [if_neg]
    push_neg
    exact hsame
  · intro hdiff
    simp only [mapRoutesStep, if_true, hr, Option.getD_some, hlast]
    rw [if_pos hdiff]

/-- C6 (amended), executable witness: a changed point is appended, an exactly
equal point is a no-op. -/
theorem route_point_append_iff_changed_witness :
    lookupRoute (α := ℚ) [("BIKE001", [⟨0, 0⟩])] "BIKE001" = some [⟨0, 0⟩]
    ∧ ([(⟨0, 0⟩ : Location ℚ)].getLast? = some ⟨0, 0⟩)
    ∧ (mapRoutesStep (α := ℚ) [("BIKE001", [⟨0, 0⟩])] true ⟨"BIKE001", ⟨0, 1⟩, 10, 70, "t1"⟩
        = setRoute [("BIKE001", [⟨0, 0⟩])] "BIKE001" [⟨0, 0⟩, ⟨0, 1⟩])
    ∧ (mapRoutesStep (α := ℚ) [("BIKE001", [⟨0, 0⟩])] true ⟨"BIKE001", ⟨0, 0⟩, 10, 70, "t2"⟩
        = [("BIKE001", [⟨0, 0⟩])]) := by
  refine ⟨rfl, rfl, ?_, ?_⟩
  · exact (route_point_append_iff_changed [("BIKE001", [⟨0, 0⟩])]
      ⟨"BIKE001", ⟨0, 1⟩, 10, 70, "t1"⟩ [⟨0, 0⟩] ⟨0, 0⟩ rfl rfl).2
      (Or.inr (by norm_num))
  · exact (route_point_append_iff_changed [("BIKE001", [⟨0, 0⟩])]
      ⟨"BIKE001", ⟨0, 0⟩, 10, 70, "t2"⟩ [⟨0, 0⟩] ⟨0, 0⟩ rfl rfl).1 ⟨rfl, rfl⟩

lemma haverA_pole : haverA 90 0 90 180 = 0 := by
  unfold haverA
  have h1 : ((90 : ℝ) - 90) * Real.pi / 180 / 2 = 0 := by ring
  have h2 : (90 : ℝ) * Real.pi / 180 = Real.pi / 2 := by ring
  rw [h1, h2, Real.sin_zero, Real.cos_pi_div_two]
  ring

lemma calculateDistance_pole : calculateDistance 90 0 90 180 = 0 := by
  unfold calculateDistance
  rw [haverA_pole]
  have h1 : Real.sqrt 0 = 0 := Real.sqrt_zero
  have h2 : (1 : ℝ) - 0 = 1 := by ring
  rw [h1, h2, Real.sqrt_one]
  rw [atan2, if_pos one_pos]
  norm_num

/-- C6, counterexample to the claim as stated: the recorded points `(90, 0)`
and `(90, 180)` are at haversine distance 0 km from each other (both are the
North Pole), far below the claimed 1-meter threshold, yet the route
accumulator appends the new point instead of being a no-op: it only filters
exact coordinate duplicates. -/
theorem route_noise_claim_cex :
    calculateDistance 90 0 90 180 ≤ 1 / 1000
    ∧ mapRoutesStep (α := ℝ) [("BIKE001", [⟨90, 0⟩])] true
        ⟨"BIKE001", ⟨90, 180⟩, 0, 0, "t1"⟩
      = [("BIKE001", [⟨90, 0⟩, ⟨90, 180⟩])] := by
  constructor
  · rw [calculateDistance_pole]
    norm_num
  · simp only [mapRoutesStep, if_true, lookupRoute, List.find?]
    norm_num [setRoute, List.getLast?]

/-- C7: after a telemetry step the location history stays within its 100-entry
cap, evicting exactly the oldest entry on overflow; and the alert buffer stays
within its 5-entry cap, each emitted alert being prepended (most recent first)
while only the 4 most recent previous alerts are retained (oldest dropped
first). -/
theorem buffers_bounded (dist : α → α → α → α → α) (cfg : FenceConfig α)
    (alertId : Nat) (now : String) (st : GfState α) (e : GfEvent α)
    (ms : MetricsState α) (me : MetricsEvent α)
    (hh : ms.locationHistory.length ≤ 100) (ha : st.alerts.length ≤ 5) :
    (metricsStep dist ms me).locationHistory.length ≤ 100
    ∧ (ms.locationHistory.length = 100 →
        (metricsStep dist ms me).locationHistory
          = ms.locationHistory.tail
              ++ [(⟨me.location.lat, me.location.lng, me.timestamp⟩ : LocationStamp α)])
    ∧ (ms.locationHistory.length < 100 →
        (metricsStep dist ms me).locationHistory
          = ms.locationHistory
              ++ [(⟨me.location.lat, me.location.lng, me.timestamp⟩ : LocationStamp α)])
    ∧ ((gfStep dist cfg alertId now st e).1).alerts.length ≤ 5
    ∧ (∀ a, (gfStep dist cfg alertId now st e).2 = some a →
        ((gfStep dist cfg alertId now st e).1).alerts = a :: st.alerts.take 4)
    ∧ ((gfStep dist cfg alertId now st e).2 = none →
        ((gfStep dist cfg alertId now st e).1).alerts = st.alerts) := by
  have hhist : (metricsStep dist ms me).locationHistory =
      if 100 < ms.locationHistory.length + 1 then
        (ms.locationHistory
          ++ [(⟨me.location.lat, me.location.lng, me.timestamp⟩ : LocationStamp α)]).tail
      else ms.locationHistory
        ++ [(⟨me.location.lat, me.location.lng, me.timestamp⟩ : LocationStamp α)] := by
    simp [metricsStep]
  refine ⟨?_, ?_, ?_, ?_, ?_, ?_⟩
  · rw [hhist]
    by_cases h100 : 100 < ms.locationHistory.length + 1
    · rw [if_pos h100, List.length_tail, List.length_append]
      simp
      omega
    · rw [if_neg h100, List.length_append]
      simp
      omega
  · intro hlen
    rw [hhist, if_pos (by omega)]
    cases hms : ms.locationHistory with
    | nil => rw [hms] at hlen; simp at hlen
    | cons a l => simp
  · intro hlen
    rw [hhist, if_neg (by omega)]
  · cases hem : gfEmit dist cfg st e with
    | false => simpa [gfStep, hem] using ha
    | true =>
        simp only [gfStep, hem, if_true, List.length_cons]
        have := List.length_take_le 4 st.alerts
        omega
  · intro a
    cases hem : gfEmit dist cfg st e with
    | true =>
        intro h
        simp only [gfStep, hem, if_true] at h ⊢
        injection h with h
        rw [← h]
    | false =>
        intro h
        simp [gfStep, hem] at h
  · cases hem : gfEmit dist cfg st e with
    | true => intro h; simp [gfStep, hem] at h
    | false => intro h; simp [gfStep, hem]

/-- C7, executable witness: concrete history and alert buffers stay within
their caps. -/
theorem buffers_bounded_witness :
    (metricsStep distQ mStQ mEvQ).locationHistory.length ≤ 100
    ∧ ((gfStep distQ cfgQ 1 "n0" ⟨[], []⟩ evOut1).1).alerts.length ≤ 5 :=
  ⟨(buffers_bounded distQ cfgQ 1 "n0" ⟨[], []⟩ evOut1 mStQ mEvQ
      (by norm_num [mStQ]) (by norm_num)).1,
    (buffers_bounded distQ cfgQ 1 "n0" ⟨[], []⟩ evOut1 mStQ mEvQ
      (by norm_num [mStQ]) (by norm_num)).2.2.2.1⟩

/-- C8: a fence-configuration change by itself never emits an Alert — the
alert buffer is exactly preserved, no bike is added or removed, and every
bike's stored classification is recomputed to be consistent with the new
configuration (outside exactly when its distance from the new center strictly
exceeds the new radius); the radius-change handler preserves the alert buffer
for every input radius. -/
theorem fence_change_silent (dist : α → α → α → α → α) (cfg' : FenceConfig α)
    (st : GfState α) :
    (applyFenceChange dist cfg' st).alerts = st.alerts
    ∧ (applyFenceChange dist cfg' st).bikes.length = st.bikes.length
    ∧ (applyFenceChange dist cfg' st).bikes.Forall (fun b =>
        b.isOutsideFence = true ↔
          cfg'.radiusKm < dist cfg'.center.lat cfg'.center.lng
            b.currentLocation.lat b.currentLocation.lng)
    ∧ ∀ r, (handleRadiusChange dist cfg' r st).2.alerts = st.alerts := by
  refine ⟨rfl, by simp [applyFenceChange, reclassifyBikes], ?_, ?_⟩
  · rw [List.forall_iff_forall_mem]
    intro b hb
    simp only [applyFenceChange, reclassifyBikes, List.mem_map] at hb
    obtain ⟨b', _, rfl⟩ := hb
    simp [evaluateFence]
  · intro r
    by_cases hr : 0 < r
    · simp [handleRadiusChange, hr, applyFenceChange]
    · simp [handleRadiusChange, hr]

def bikeOutQ : GfBike ℚ :=
  { bikeId := "BIKE001", currentLocation := ⟨2, 0⟩, avgSpeed := 10,
    batteryLevel := 70, lastSeen := "t0", status := "active",
    isOutsideFence := true, distanceFromBase := 4 }

def alertQ : GfAlert ℚ :=
  { id := 1, bikeId := "BIKE001", alertType := "fence_breach",
    message := "m", distanceKm := 4, timestamp := "n0" }

/-- The C8 spec scenario, concretely: a bike outside the radius-1 fence,
widening the radius to 5 reclassifies it inside, shrinking back reclassifies
it outside, and the alert buffer is untouched by both changes. -/
theorem fence_radius_toggle_demo :
    ((handleRadiusChange distQ cfgQ 5 ⟨[bikeOutQ], [alertQ]⟩).2.bikes.map
        GfBike.isOutsideFence = [false]
      ∧ (handleRadiusChange distQ ⟨⟨0, 0⟩, 5⟩ 1
          (handleRadiusChange distQ cfgQ 5 ⟨[bikeOutQ], [alertQ]⟩).2).2.bikes.map
        GfBike.isOutsideFence = [true]
      ∧ (handleRadiusChange distQ cfgQ 5 ⟨[bikeOutQ], [alertQ]⟩).2.alerts = [alertQ]
      ∧ (handleRadiusChange distQ ⟨⟨0, 0⟩, 5⟩ 1
          (handleRadiusChange distQ cfgQ 5 ⟨[bikeOutQ], [alertQ]⟩).2).2.alerts
        = [alertQ]) := by
  refine ⟨?_, ?_, ?_, ?_⟩ <;>
    norm_num [handleRadiusChange, applyFenceChange, reclassifyBikes,
      evaluateFence, distQ, cfgQ, bikeOutQ]

omit [LinearOrderedField α] in
lemma lookupRoute_setRoute_self (rs : Routes α) (id : String)
    (pts : List (Location α)) :
    lookupRoute (setRoute rs id pts) id = some pts := by
  induction rs with
  | nil => simp [setRoute, lookupRoute, List.find?]
  | cons r rs ih =>
      cases hbeq : r.1 == id with
      | true => simp [setRoute, hbeq, lookupRoute, List.find?]
      | false =>
          simp only [lookupRoute] at ih
          simp [setRoute, hbeq, lookupRoute, List.find?, ih]

omit [LinearOrderedField α] in
lemma lookupRoute_setRoute_ne (rs : Routes α) (id id' : String)
    (pts : List (Location α)) (h : id' ≠ id) :
    lookupRoute (setRoute rs id pts) id' = lookupRoute rs id' := by
  have hne : (id == id') = false := by
    rw [beq_eq_false_iff_ne]
    exact Ne.symm h
  induction rs with
  | nil => simp [setRoute, lookupRoute, List.find?, hne]
  | cons r rs ih =>
      cases hbeq : r.1 == id with
      | true =>
          have hr : r.1 = id := eq_of_beq hbeq
          simp [setRoute, hbeq, lookupRoute, List.find?, hne, hr]
      | false =>
          simp only [lookupRoute] at ih
          cases hbeq2 : r.1 == id' with
          | true => simp [setRoute, hbeq, lookupRoute, List.find?, hbeq2]
          | false => simp [setRoute, hbeq, lookupRoute, List.find?, hbeq2, ih]

omit [LinearOrderedField α] in
lemma foldl_seedRoute_not_mem (bikes : List (MBike α)) (acc : Routes α)
    (id : String) (h : ∀ b ∈ bikes, b.bikeId ≠ id) :
    lookupRoute (bikes.foldl seedRoute acc) id = lookupRoute acc id := by
  induction bikes generalizing acc with
  | nil => rfl
  | cons c cs ih =>
      rw [List.foldl_cons, ih _ (fun b hb => h b (List.mem_cons_of_mem c hb))]
      cases hc : c.currentLocation with
      | none => simp [seedRoute, hc]
      | some l =>
          simp only [seedRoute, hc]
          exact lookupRoute_setRoute_ne acc c.bikeId id [l]
            (Ne.symm (h c (List.mem_cons_self c cs)))

omit [LinearOrderedField α] in
lemma foldl_seedRoute_mem (bikes : List (MBike α)) (acc : Routes α)
    (b : MBike α) (l : Location α) (hmem : b ∈ bikes)
    (hnodup : bikes.Pairwise (fun x y => x.bikeId ≠ y.bikeId))
    (hloc : b.currentLocation = some l) :
    lookupRoute (bikes.foldl seedRoute acc) b.bikeId = some [l] := by
  induction bikes generalizing acc with
  | nil => exact absurd hmem (List.not_mem_nil b)
  | cons c cs ih =>
      rw [List.pairwise_cons] at hnodup
      obtain ⟨hhead, htail⟩ := hnodup
      rw [List.mem_cons] at hmem
      rcases hmem with hbc | hmem
      · subst hbc
        rw [List.foldl_cons,
          foldl_seedRoute_not_mem cs _ b.bikeId (fun b' hb' => Ne.symm (hhead b' hb'))]
        simp only [seedRoute, hloc]
        exact lookupRoute_setRoute_self acc b.bikeId [l]
      · rw [List.foldl_cons]
        exact ih _ hmem htail

omit [LinearOrderedField α] in
/-- C9 (amended): stopping route tracking only clears the tracking flag and
leaves all recorded routes in place; starting route tracking discards all
previously recorded routes and seeds, for each currently known bike (bike ids
distinct), the route with exactly the single point at that bike's current
location — ids unknown to the bike list have no route afterwards. -/
theorem tracking_toggle_routes (st st' : MapState α)
    (hnodup : st'.bikes.Pairwise (fun x y => x.bikeId ≠ y.bikeId)) :
    (stopRouteTracking st).routes = st.routes
    ∧ (stopRouteTracking st).isTrackingRoutes = false
    ∧ (startRouteTracking st').isTrackingRoutes = true
    ∧ (∀ b ∈ st'.bikes, ∀ l, b.currentLocation = some l →
        lookupRoute (startRouteTracking st').routes b.bikeId = some [l])
    ∧ ∀ id, (∀ b ∈ st'.bikes, b.bikeId ≠ id) →
        lookupRoute (startRouteTracking st').routes id = none := by
  refine ⟨rfl, rfl, rfl, ?_, ?_⟩
  · intro b hb l hl
    exact foldl_seedRoute_mem st'.bikes [] b l hb hnodup hl
  · intro id hid
    exact foldl_seedRoute_not_mem st'.bikes [] id hid

/-- C9, counterexample to the claim as stated: toggling route tracking off
leaves a non-empty routes object completely unchanged — it does not clear the
route-accumulator state. -/
theorem stop_tracking_keeps_routes_cex :
    (stopRouteTracking (α := ℚ) ⟨[], [("BIKE001", [⟨0, 0⟩])], true⟩).routes
      = [("BIKE001", [⟨0, 0⟩])]
    ∧ ([("BIKE001", [(⟨0, 0⟩ : Location ℚ)])] : Routes ℚ) ≠ ([] : Routes ℚ) :=
  ⟨rfl, by simp⟩

def mapBikeQ : MBike ℚ := ⟨"BIKE001", some ⟨7, 8⟩, 10, 70, "t0", "active"⟩

def mapStQ : MapState ℚ := ⟨[mapBikeQ], [("OLD", [⟨0, 0⟩])], false⟩

/-- C9 (amended), executable witness: stopping keeps the old routes; starting
re-seeds the known bike's route with its current location and drops the stale
route key. -/
theorem tracking_toggle_routes_witness :
    (stopRouteTracking mapStQ).routes = mapStQ.routes
    ∧ lookupRoute (startRouteTracking mapStQ).routes mapBikeQ.bikeId = some [⟨7, 8⟩]
    ∧ lookupRoute (startRouteTracking mapStQ).routes "OLD" = none :=
  ⟨(tracking_toggle_routes mapStQ mapStQ (by simp [mapStQ])).1,
    (tracking_toggle_routes mapStQ mapStQ (by simp [mapStQ])).2.2.2.1 mapBikeQ
      (by simp [mapStQ]) ⟨7, 8⟩ rfl,
    (tracking_toggle_routes mapStQ mapStQ (by simp [mapStQ])).2.2.2.2 "OLD"
      (by
        intro b hb
        simp only [mapStQ, List.mem_singleton] at hb
        subst hb
        simp [mapBikeQ])⟩

omit [LinearOrderedField α] in
lemma findBike_replaceBike_ne (l : List (GfBike α)) (nb : GfBike α)
    (id : String) (h : id ≠ nb.bikeId) :
    findBike (replaceBike l nb) id = findBike l id := by
  have hne : (nb.bikeId == id) = false := by
    rw [beq_eq_false_iff_ne]
    exact Ne.symm h
  induction l with
  | nil => simp [replaceBike, findBike, List.find?, hne]
  | cons b bs ih =>
      cases hbeq : b.bikeId == nb.bikeId with
      | true =>
          have hb : b.bikeId = nb.bikeId := eq_of_beq hbeq
          simp [replaceBike, hbeq, findBike, List.find?, hne, hb]
      | false =>
          simp only [findBike] at ih
          cases hbeq2 : b.bikeId == id with
          | true => simp [replaceBike, hbeq, findBike, List.find?, hbeq2]
          | false => simp [replaceBike, hbeq, findBike, List.find?, hbeq2, ih]

omit [LinearOrderedField α] in
lemma length_le_replaceBike (l : List (GfBike α)) (nb : GfBike α) :
    l.length ≤ (replaceBike l nb).length := by
  induction l with
  | nil => simp [replaceBike]
  | cons b bs ih =>
      cases hbeq : b.bikeId == nb.bikeId with
      | true => simp [replaceBike, hbeq]
      | false => simpa [replaceBike, hbeq] using ih

omit [LinearOrderedField α] in
lemma mapBikesStep_find_ne (l : List (MBike α)) (e : GfEvent α)
    (id : String) (h : id ≠ e.bikeId) :
    (mapBikesStep l e).find? (fun b => b.bikeId == id)
      = l.find? (fun b => b.bikeId == id) := by
  have hne : (e.bikeId == id) = false := by
    rw [beq_eq_false_iff_ne]
    exact Ne.symm h
  induction l with
  | nil => simp [mapBikesStep, List.find?, hne]
  | cons b bs ih =>
      cases hbeq : b.bikeId == e.bikeId with
      | true =>
          have hb : b.bikeId = e.bikeId := eq_of_beq hbeq
          simp [mapBikesStep, hbeq, List.find?, hne, hb]
      | false =>
          cases hbeq2 : b.bikeId == id with
          | true => simp [mapBikesStep, hbeq, List.find?, hbeq2]
          | false => simp [mapBikesStep, hbeq, List.find?, hbeq2, ih]

omit [LinearOrderedField α] in
lemma length_le_mapBikesStep (l : List (MBike α)) (e : GfEvent α) :
    l.length ≤ (mapBikesStep l e).length := by
  induction l with
  | nil => simp [mapBikesStep]
  | cons b bs ih =>
      cases hbeq : b.bikeId == e.bikeId with
      | true => simp [mapBikesStep, hbeq]
      | false => simpa [mapBikesStep, hbeq] using ih

/-- C10: a telemetry event for one bike id is a frame-preserving update in
both views: the stored record of every other bike id is untouched (same
lookup result, covering location, speed, battery, `lastSeen`, status and
fence classification), and no bike is ever deleted. -/
theorem telemetry_update_frame (dist : α → α → α → α → α)
    (cfg : FenceConfig α) (alertId : Nat) (now : String) (st : GfState α)
    (mst : MapState α) (e : GfEvent α) (id : String) (hid : id ≠ e.bikeId) :
    findBike ((gfStep dist cfg alertId now st e).1).bikes id = findBike st.bikes id
    ∧ st.bikes.length ≤ ((gfStep dist cfg alertId now st e).1).bikes.length
    ∧ (mapStep mst e).bikes.find? (fun b => b.bikeId == id)
        = mst.bikes.find? (fun b => b.bikeId == id)
    ∧ mst.bikes.length ≤ (mapStep mst e).bikes.length := by
  refine ⟨?_, ?_, ?_, ?_⟩
  · rw [gfStep_fst_bikes]
    exact findBike_replaceBike_ne st.bikes (gfUpdatedBike dist cfg e) id hid
  · rw [gfStep_fst_bikes]
    exact length_le_replaceBike st.bikes (gfUpdatedBike dist cfg e)
  · exact mapBikesStep_find_ne mst.bikes e id hid
  · exact length_le_mapBikesStep mst.bikes e

/-- C10, executable witness: an update for `BIKE001` leaves the record of
`OTHER` unchanged in both views and deletes nothing. -/
theorem telemetry_update_frame_witness :
    ("OTHER" : String) ≠ evOut1.bikeId
    ∧ (findBike ((gfStep distQ cfgQ 1 "n0" ⟨[], []⟩ evOut1).1).bikes "OTHER"
        = findBike [] "OTHER"
      ∧ ([] : List (GfBike ℚ)).length
          ≤ ((gfStep distQ cfgQ 1 "n0" ⟨[], []⟩ evOut1).1).bikes.length
      ∧ (mapStep mapStQ evOut1).bikes.find? (fun b => b.bikeId == "OTHER")
          = mapStQ.bikes.find? (fun b => b.bikeId == "OTHER")
      ∧ mapStQ.bikes.length ≤ (mapStep mapStQ evOut1).bikes.length) := by
  have hid : ("OTHER" : String) ≠ evOut1.bikeId := by simp [evOut1]
  exact ⟨hid,
    (telemetry_update_frame distQ cfgQ 1 "n0" ⟨[], []⟩ mapStQ evOut1 "OTHER" hid).1,
    (telemetry_update_frame distQ cfgQ 1 "n0" ⟨[], []⟩ mapStQ evOut1 "OTHER" hid).2.1,
    (telemetry_update_frame distQ cfgQ 1 "n0" ⟨[], []⟩ mapStQ evOut1 "OTHER" hid).2.2.1,
    (telemetry_update_frame distQ cfgQ 1 "n0" ⟨[], []⟩ mapStQ evOut1 "OTHER" hid).2.2.2⟩

end SmartCycle
